import Mathlib

/-!
A shallow embedding of the ImQuick image viewer (imquick.py), covering the
parts of the program exercised by the verified properties below: the raw-data
rescaling heuristic, the contrast/levels window, the display-bound correction
callbacks, zoom-step guards, stack-plane entry validation, directory listing
and file-series navigation, the tile-geometry computation of the renderer, and
the load/error-recovery path.

Machine arithmetic conventions used throughout the embedding:
* Python floats are modelled as rationals; the floating literal 1.3 is the
  rational 13/10.
* Python int() is truncation toward zero (pyTrunc).
* NumPy astype uint8 on a nonnegative value is truncation followed by
  reduction modulo 256 (toU8).
-/

namespace ImQuick

/-- Python int() applied to a rational: truncation toward zero. -/
def pyTrunc (q : ℚ) : ℤ := if 0 ≤ q then ⌊q⌋ else -⌊-q⌋

/-- NumPy astype uint8 on a nonnegative value: truncate toward zero,
then wrap modulo 256. -/
def toU8 (q : ℚ) : ℤ := pyTrunc q % 256

/-- data.max() of a sample array.  NumPy raises on an empty array; the value
chosen for [] here is never relied upon (nonemptiness is carried by the
theorems that need it). -/
def listMax : List ℚ → ℚ
  | [] => 0
  | x :: xs => xs.foldl max x

/-- rescale_data (imquick.py lines 810-822): choose a scale by inspecting the
raw maximum, apply it to every sample, and cast the result to uint8. -/
def rescale_data (data : List ℚ) : List ℤ :=
  let maxval := listMax data
  let out :=
    if 4096 ≤ maxval then data.map (fun v => v / 265)
    else if 1024 ≤ maxval then data.map (fun v => v / 16)
    else if 256 ≤ maxval then data.map (fun v => v / 4)
    else if maxval ≤ 1 then data.map (fun v => v * 256)
    else data
  out.map toU8

/-- The per-sample scale described by the specification (section 4.1), as a
step function of the raw maximum m.  This definition follows the words of the
spec and is compared against rescale_data. -/
def specScale (m : ℚ) (v : ℚ) : ℚ :=
  if 4096 ≤ m then v / 265
  else if 1024 ≤ m then v / 16
  else if 256 ≤ m then v / 4
  else if m ≤ 1 then v * 256
  else v

/-- A bounding box in canvas coordinates, as the 4-tuples used by
show_image. -/
structure Bbox where
  x1 : ℚ
  y1 : ℚ
  x2 : ℚ
  y2 : ℚ
deriving DecidableEq

/-- The tile-geometry core of show_image (imquick.py lines 556-565): from the
image bounding box (after the one-pixel shift of line 542 has been removed,
so this argument is the true box of the image on the canvas) and the visible
bounding box, compute the pre-rounding image-space crop bounds
(des_x1, des_y1, des_x2, des_y2), or none when the visibility guard
int(x2-x1) > 0 and int(y2-y1) > 0 fails. -/
def show_image_des (imageBbox visibleBbox : Bbox) (zoom : ℚ) : Option Bbox :=
  let x1 := max (visibleBbox.x1 - imageBbox.x1) 0
  let y1 := max (visibleBbox.y1 - imageBbox.y1) 0
  let x2 := min visibleBbox.x2 imageBbox.x2 - imageBbox.x1
  let y2 := min visibleBbox.y2 imageBbox.y2 - imageBbox.y1
  if 0 < pyTrunc (x2 - x1) ∧ 0 < pyTrunc (y2 - y1) then
    some ⟨x1 / zoom, y1 / zoom, x2 / zoom, y2 / zoom⟩
  else none

/-- Spec-side definition (section 4.3 steps 1-2): intersect the image
bounding box with the viewport rectangle. -/
def rect_intersect (a b : Bbox) : Bbox :=
  ⟨max a.x1 b.x1, max a.y1 b.y1, min a.x2 b.x2, min a.y2 b.y2⟩

/-- Spec-side definition: the intersection re-expressed relative to the image
origin and divided by the zoom factor. -/
def spec_des (imageBbox visibleBbox : Bbox) (zoom : ℚ) : Bbox :=
  let r := rect_intersect imageBbox visibleBbox
  ⟨(r.x1 - imageBbox.x1) / zoom, (r.y1 - imageBbox.y1) / zoom,
   (r.x2 - imageBbox.x1) / zoom, (r.y2 - imageBbox.y1) / zoom⟩

/-- update_contrast line 332 / 325: the masked assignment
temp_data[temp_data < new_min] = new_min, per sample. -/
def clampBelow (m v : ℚ) : ℚ := if v < m then m else v

/-- update_contrast line 333 / 326: (value - new_min) / (new_max - new_min),
applied after the mask assignment. -/
def windowScale (vmin vmax v : ℚ) : ℚ := (clampBelow vmin v - vmin) / (vmax - vmin)

/-- update_contrast line 334: the masked assignment temp_data[temp_data > 1] = 1,
per sample. -/
def clampAbove (v : ℚ) : ℚ := if 1 < v then 1 else v

/-- The complete per-sample pipeline of update_contrast
(imquick.py lines 315-335): clamp below the window minimum, rescale by the
window, clamp the ratio at 1, scale to 255 and cast to uint8. -/
def windowToU8 (vmin vmax v : ℚ) : ℤ :=
  toU8 (clampAbove (windowScale vmin vmax v) * 255)

/-- update_contrast in global mode (lines 329-335): one window applied to
every sample. -/
def update_contrast (vmin vmax : ℚ) (data : List ℚ) : List ℤ :=
  data.map (fun v => windowToU8 vmin vmax v)

/-- update_contrast in per-channel mode (lines 318-328): channel slice i is
windowed with the i-th (min, max) pair popped from the per-channel array, and
the channels are recombined in order. -/
def update_contrast_per_channel (pairs : List (ℚ × ℚ))
    (channels : List (List ℚ)) : List (List ℤ) :=
  List.zipWith (fun p ch => ch.map (fun v => windowToU8 p.1 p.2 v)) pairs channels

/-- The pair of display-intensity bounds held by the two tkinter IntVars
min_display_value and max_display_value. -/
structure DisplayBounds where
  minD : ℤ
  maxD : ℤ
deriving DecidableEq

mutual

/-- update_min_display (imquick.py lines 254-269), restricted to the two
IntVars it mutates.  Writing to either variable re-enters its trace callback
synchronously, which is modelled by the recursive calls on the updated state;
the callback works on the stale local copies min_d / max_d read at entry,
exactly as the source does.  The fuel bounds the re-entrancy depth, which
never exceeds three in reachable states. -/
def update_min_display : ℕ → DisplayBounds → DisplayBounds
  | 0, s => s
  | fuel + 1, s =>
    let s1 := if s.minD = 255 then update_min_display fuel { s with minD := 254 } else s
    if s.maxD ≤ s.minD then update_max_display fuel { s1 with maxD := s.minD + 1 } else s1

/-- update_max_display (imquick.py lines 271-286), modelled like
update_min_display. -/
def update_max_display : ℕ → DisplayBounds → DisplayBounds
  | 0, s => s
  | fuel + 1, s =>
    let s1 := if s.maxD = 0 then update_max_display fuel { s with maxD := 1 } else s
    if s.maxD ≤ s.minD then update_min_display fuel { s1 with minD := s.maxD - 1 } else s1

end

/-- Assigning a new value to min_display_value: the variable takes the value,
then its write trace (update_min_display) runs.  Three units of fuel cover
the deepest possible chain of re-entrant variable writes. -/
def set_min_display (v : ℤ) (s : DisplayBounds) : DisplayBounds :=
  update_min_display 3 { s with minD := v }

/-- Assigning a new value to max_display_value. -/
def set_max_display (v : ℤ) (s : DisplayBounds) : DisplayBounds :=
  update_max_display 3 { s with maxD := v }

/-- zoom_out (imquick.py lines 450-458): imgW and imgH are the image's native
dimensions, the guard compares int(min(width, height) * zoom_factor) with 30
before the step, and an accepted step divides the zoom factor by
delta = 1.3. -/
def zoom_out (imgW imgH : ℕ) (zoom : ℚ) : ℚ :=
  if pyTrunc (min (imgW : ℚ) (imgH : ℚ) * zoom) < 30 then zoom
  else zoom / (13 / 10)

/-- zoom_in (imquick.py lines 440-448): canvasW and canvasH are the canvas
(container) dimensions, the guard compares min(width, height) / 5 with the
pre-step zoom factor, and an accepted step multiplies the zoom factor by
delta = 1.3. -/
def zoom_in (canvasW canvasH : ℕ) (zoom : ℚ) : ℚ :=
  if min (canvasW : ℚ) (canvasH : ℚ) / 5 < zoom then zoom
  else zoom * (13 / 10)

/-- zoom_mouse (imquick.py lines 460-481): a wheel step is ignored when the
cursor is outside the image bounding box, and otherwise applies the zoom_out
guard for a negative wheel delta and the zoom_in guard for a positive one,
with the same duplicated guard expressions as the source. -/
def zoom_mouse (imgW imgH canvasW canvasH : ℕ) (inside : Bool) (delta : ℤ)
    (zoom : ℚ) : ℚ :=
  if inside = false then zoom
  else if delta < 0 then
    (if pyTrunc (min (imgW : ℚ) (imgH : ℚ) * zoom) < 30 then zoom
     else zoom / (13 / 10))
  else if 0 < delta then
    (if min (canvasW : ℚ) (canvasH : ℚ) / 5 < zoom then zoom
     else zoom * (13 / 10))
  else zoom

/-- The text handed to the set_z_plane validator: the empty string, a string
parsing as an integer n, or text on which Python int() raises ValueError. -/
inductive ZInput
  | empty
  | num (n : ℤ)
  | invalid
deriving DecidableEq

/-- set_z_plane (imquick.py lines 298-313): returns the resulting
z_display_value together with the validator verdict (True accepts the edit,
False rejects it and the entry reverts).  The prev argument is the value the
variable held before the edit; it is retained when int() raises, which the
bare try/except turns into a False return, so no exception propagates. -/
def set_z_plane (maxPlane prev : ℤ) : ZInput → ℤ × Bool
  | .empty => (if maxPlane < 0 then maxPlane else 0, true)
  | .num n => (if maxPlane < n then maxPlane else if n < 0 then 0 else n, true)
  | .invalid => (prev, false)

/-- The supported-extension set (imquick.py line 21), lowercase, as character
lists. -/
def SUPPORTED_EXTENSIONS : List (List Char) :=
  [".tif".toList, ".tiff".toList, ".gif".toList, ".png".toList,
   ".jpeg".toList, ".jpg".toList, ".bmp".toList, ".npz".toList, ".itk".toList]

/-- str.lower() over the characters of a file name. -/
def lowerStr (s : List Char) : List Char := s.map Char.toLower

/-- os.path.splitext(name)[-1] for a plain file name (no path separators):
the suffix starting at the last dot, provided some character before that dot
is not itself a dot; otherwise the empty extension (a leading run of dots
never starts an extension). -/
def splitext_last (f : List Char) : List Char :=
  match f.reverse.findIdx? (fun c => c = '.') with
  | none => []
  | some k =>
    let i := f.length - 1 - k
    if (f.take i).any (fun c => c ≠ '.') then f.drop i else []

/-- Python list.index, modelled totally: the index of the first occurrence,
with none standing for the ValueError list.index raises when the element is
absent. -/
def pyIndex {α : Type} [DecidableEq α] : List α → α → Option ℕ
  | [], _ => none
  | x :: xs, a => if x = a then some 0 else (pyIndex xs a).map (fun i => i + 1)

/-- make_file_list (imquick.py lines 590-595): filter the directory listing
by the supported extensions (case-insensitively), join each surviving name to
the directory, assign the result to file_list, then look up the current file
with list.index.  The directory is assumed already normalized without a
trailing separator and the listing entries are plain names, under which
os.path.normpath(os.path.join(directory, name)) is directory ++ "/" ++ name.
The returned index is none exactly when list.index raises ValueError, in
which case current_index keeps its previous value while file_list has already
been replaced. -/
def make_file_list (directory : List Char) (listing : List (List Char))
    (file : List Char) : List (List Char) × Option ℕ :=
  let fl := (listing.filter
      (fun f => decide (lowerStr (splitext_last f) ∈ SUPPORTED_EXTENSIONS))).map
    (fun f => directory ++ '/' :: f)
  (fl, pyIndex fl file)

/-- next_file (imquick.py lines 604-618) on a series of the given length: the
new current index, paired with whether a file load follows.  The series here
is the one in force after the lazy rebuild that precedes these branches: a
successful rebuild always contains the current file, so the length-zero case
never reaches this guard.  The length comparisons are over ℤ because Python
computes len - 1 without ℕ truncation. -/
def next_file (listLen : ℕ) (idx : ℕ) : ℕ × Bool :=
  if listLen = 1 then (idx, false)
  else if (idx : ℤ) < (listLen : ℤ) - 1 then (idx + 1, true)
  else if (idx : ℤ) = (listLen : ℤ) - 1 then (0, true)
  else (idx, true)

/-- prev_file (imquick.py lines 620-634), modelled like next_file. -/
def prev_file (listLen : ℕ) (idx : ℕ) : ℕ × Bool :=
  if listLen = 1 then (idx, false)
  else if 0 < idx then (idx - 1, true)
  else if idx = 0 then (listLen - 1, true)
  else (idx, true)

/-- One decoded image plane, as its flattened samples. -/
abbrev Plane := List ℚ

/-- The per-window session state touched by load_image: the fields the
try/except of imquick.py lines 368-395 reads or writes. -/
structure Session where
  file : Option String
  reader : Option (List Plane)
  imageData : Option Plane
  zValue : ℕ
  maxPlane : ℤ
  stackShown : Bool
  minDisplay : ℤ
  maxDisplay : ℤ
  placeholder : Bool
deriving DecidableEq

/-- Outcome of the decoder collaborator inside the try block of load_image:
the open or metadata read raises; the reader opens and reports a plane count
but get_data raises; or decoding succeeds with the given planes.  A plane
list of length zero behaves like the last failure point, because
get_data(0) raises after max_plane has been set to -1. -/
inductive DecodeResult
  | failOpen
  | failData (numPlanes : ℕ)
  | ok (planes : List Plane)
deriving DecidableEq

/-- load_image (imquick.py lines 368-415), over the state the canvas-free
parts of it mutate.  On any exception inside the try block the except branch
shows the placeholder text and clears reader and file (mutations already
performed before the raise, such as max_plane, survive); on success the
displayed plane is plane maxPlane / 2 for a multi-plane stack (the plane
selector is set to the same index) and plane 0 otherwise, the contrast window
resets to (0, 255), and the file is recorded. -/
def load_image (s : Session) (path : String) (dec : DecodeResult) : Session :=
  match dec with
  | .failOpen => { s with reader := none, file := none, placeholder := true }
  | .failData n =>
    { s with maxPlane := (n : ℤ) - 1, reader := none, file := none,
             placeholder := true }
  | .ok planes =>
    if planes = [] then
      { s with maxPlane := -1, reader := none, file := none, placeholder := true }
    else
      let mp := planes.length - 1
      if 0 < mp then
        { s with reader := some planes, maxPlane := (mp : ℤ),
                 imageData := planes.get? (mp / 2), zValue := mp / 2,
                 stackShown := true, minDisplay := 0, maxDisplay := 255,
                 file := some path, placeholder := false }
      else
        { s with reader := some planes, maxPlane := (mp : ℤ),
                 imageData := planes.get? 0,
                 stackShown := false, minDisplay := 0, maxDisplay := 255,
                 file := some path, placeholder := false }

/-- The not_without_file decorator (imquick.py lines 30-35): an operation is
run only when a file is loaded, otherwise the state is untouched. -/
def not_without_file (op : Session → Session) (s : Session) : Session :=
  if s.file.isSome then op s else s

/-- Whether the decode outcome takes the except branch of load_image. -/
def decode_failed : DecodeResult → Bool
  | .failOpen => true
  | .failData _ => true
  | .ok planes => planes.isEmpty

end ImQuick

namespace ImQuick

/-- Evaluation rule for pyTrunc on a nonnegative rational bracketed by an
integer. -/
theorem pyTrunc_eval {q : ℚ} (n : ℤ) (h0 : 0 ≤ n) (h1 : (n : ℚ) ≤ q)
    (h2 : q < n + 1) : pyTrunc q = n := by
  have hq : 0 ≤ q := le_trans (by exact_mod_cast h0) h1
  unfold pyTrunc
  rw [if_pos hq]
  exact Int.floor_eq_iff.mpr ⟨h1, by exact_mod_cast h2⟩

/-- Evaluation rule for toU8 on a nonnegative rational bracketed by an
integer. -/
theorem toU8_eval {q : ℚ} (n : ℤ) (h0 : 0 ≤ n) (h1 : (n : ℚ) ≤ q)
    (h2 : q < n + 1) : toU8 q = n % 256 := by
  unfold toU8
  rw [pyTrunc_eval n h0 h1 h2]

/-- C1: rescale_data selects its scale as a pure step function of the array
maximum, exactly on the divisor branches of section 4.1, with the result cast
to uint8; the boundary maxima 255/256, 1023/1024, 4095/4096 and 0/1 fall on
the branch edges. -/
theorem rescale_data_step_function :
    (∀ data : List ℚ, rescale_data data
        = data.map (fun v => toU8 (specScale (listMax data) v))) ∧
    (∀ m v : ℚ,
      (4096 ≤ m → specScale m v = v / 265) ∧
      (1024 ≤ m → m < 4096 → specScale m v = v / 16) ∧
      (256 ≤ m → m < 1024 → specScale m v = v / 4) ∧
      (m ≤ 1 → specScale m v = v * 256) ∧
      (1 < m → m < 256 → specScale m v = v)) ∧
    (rescale_data [255] = [255] ∧ rescale_data [256] = [64] ∧
     rescale_data [1023] = [255] ∧ rescale_data [1024] = [64] ∧
     rescale_data [4095] = [255] ∧ rescale_data [4096] = [15] ∧
     rescale_data [0] = [0] ∧ rescale_data [1] = [0]) := by
  refine ⟨?_, ?_, ?_⟩
  · intro data
    unfold rescale_data specScale
    split_ifs <;> simp [*, List.map_map, Function.comp]
  · intro m v
    refine ⟨?_, ?_, ?_, ?_, ?_⟩ <;> intros <;> unfold specScale <;>
      split_ifs <;> first | rfl | linarith
  · refine ⟨?_, ?_, ?_, ?_, ?_, ?_, ?_, ?_⟩
    · unfold rescale_data
      norm_num [listMax]
      rw [toU8_eval 255 (by norm_num) (by norm_num) (by norm_num)]
      decide
    · unfold rescale_data
      norm_num [listMax]
      rw [toU8_eval 64 (by norm_num) (by norm_num) (by norm_num)]
      decide
    · unfold rescale_data
      norm_num [listMax]
      rw [toU8_eval 255 (by norm_num) (by norm_num) (by norm_num)]
      decide
    · unfold rescale_data
      norm_num [listMax]
      rw [toU8_eval 64 (by norm_num) (by norm_num) (by norm_num)]
      decide
    · unfold rescale_data
      norm_num [listMax]
      rw [toU8_eval 255 (by norm_num) (by norm_num) (by norm_num)]
      decide
    · unfold rescale_data
      norm_num [listMax]
      rw [toU8_eval 15 (by norm_num) (by norm_num) (by norm_num)]
      decide
    · unfold rescale_data
      norm_num [listMax]
      rw [toU8_eval 0 (by norm_num) (by norm_num) (by norm_num)]
      decide
    · unfold rescale_data
      norm_num [listMax]
      rw [toU8_eval 256 (by norm_num) (by norm_num) (by norm_num)]
      decide

/-- Witness for C1: the step function evaluated at a concrete maximum in the
top branch (5000 is at least 4096, selecting division by 265). -/
theorem rescale_data_step_function_witness :
    (4096 : ℚ) ≤ 5000 ∧ specScale 5000 7 = 7 / 265 :=
  ⟨by norm_num, (rescale_data_step_function.2.1 5000 7).1 (by norm_num)⟩

/-- C2 counterexample: at zoom factor 2, viewport (10,10)-(50,50) and image
box (0,0)-(200,200), the code computes pre-rounding crop bounds
(5,5)-(25,25), not the claimed (5,5)-(20,20): the claimed upper corner is the
intersection extent (40/2 = 20), not the upper bound (50/2 = 25). -/
theorem show_image_des_counterexample :
    show_image_des ⟨0, 0, 200, 200⟩ ⟨10, 10, 50, 50⟩ 2 = some ⟨5, 5, 25, 25⟩ ∧
    (⟨5, 5, 25, 25⟩ : Bbox) ≠ ⟨5, 5, 20, 20⟩ := by
  constructor
  · unfold show_image_des
    norm_num [min_def, max_def]
    rw [pyTrunc_eval 40 (by norm_num) (by norm_num) (by norm_num)]
    norm_num
  · intro hEq
    have hx2 := congrArg Bbox.x2 hEq
    norm_num at hx2

/-- C2 (amended): whenever the visibility guard passes, the pre-rounding
image-space crop bounds are exactly the intersection of the image bounding
box with the viewport, re-expressed relative to the image origin and divided
by the zoom factor; at the scenario of the claim this yields (5,5)-(25,25),
whose extents are 20 by 20 image pixels. -/
theorem show_image_des_refines_spec :
    ∀ (imageBbox visibleBbox : Bbox) (zoom : ℚ) (d : Bbox),
      show_image_des imageBbox visibleBbox zoom = some d →
      d = spec_des imageBbox visibleBbox zoom := by
  intro img vis z d h
  have key : ∀ a b : ℚ, max a b - b = max (a - b) 0 := by
    intro a b
    rcases le_total a b with hab | hab
    · rw [max_eq_right hab, max_eq_right (by linarith), sub_self]
    · rw [max_eq_left hab, max_eq_left (by linarith)]
  simp only [show_image_des] at h
  split_ifs at h
  have hd := Option.some.inj h
  subst hd
  unfold spec_des rect_intersect
  dsimp only
  rw [min_comm img.x2 vis.x2, min_comm img.y2 vis.y2, max_comm img.x1 vis.x1,
    max_comm img.y1 vis.y1, key, key]

theorem clampBelow_ge (m v : ℚ) : m ≤ clampBelow m v := by
  unfold clampBelow
  split_ifs with h <;> linarith

theorem clampBelow_mono (m : ℚ) {v w : ℚ} (h : v ≤ w) :
    clampBelow m v ≤ clampBelow m w := by
  unfold clampBelow
  split_ifs <;> linarith

theorem clampAbove_le_one (v : ℚ) : clampAbove v ≤ 1 := by
  unfold clampAbove
  split_ifs <;> linarith

theorem clampAbove_nonneg {v : ℚ} (h : 0 ≤ v) : 0 ≤ clampAbove v := by
  unfold clampAbove
  split_ifs <;> linarith

theorem clampAbove_mono {v w : ℚ} (h : v ≤ w) : clampAbove v ≤ clampAbove w := by
  unfold clampAbove
  split_ifs <;> linarith

theorem windowScale_nonneg {vmin vmax : ℚ} (h : vmin < vmax) (v : ℚ) :
    0 ≤ windowScale vmin vmax v :=
  div_nonneg (by linarith [clampBelow_ge vmin v]) (by linarith)

theorem windowScale_mono {vmin vmax : ℚ} (h : vmin < vmax) {v w : ℚ}
    (hvw : v ≤ w) : windowScale vmin vmax v ≤ windowScale vmin vmax w :=
  div_le_div_of_nonneg_right (by linarith [clampBelow_mono vmin hvw]) (by linarith)

/-- For a ratio already clamped into the unit interval, the uint8 cast of the
scaled value is its floor, which lies in [0, 255]. -/
theorem toU8_of_unit {x : ℚ} (h0 : 0 ≤ x) (h1 : x ≤ 1) :
    toU8 (x * 255) = ⌊x * 255⌋ ∧ 0 ≤ ⌊x * 255⌋ ∧ ⌊x * 255⌋ ≤ 255 := by
  have hx : 0 ≤ x * 255 := by positivity
  have hfl : 0 ≤ ⌊x * 255⌋ := Int.floor_nonneg.mpr hx
  have hub : ⌊x * 255⌋ ≤ 255 := by
    apply Int.floor_le_iff.mpr
    push_cast
    linarith
  refine ⟨?_, hfl, hub⟩
  unfold toU8 pyTrunc
  rw [if_pos hx, Int.emod_eq_of_lt hfl (by omega)]

theorem windowToU8_bounds {vmin vmax : ℚ} (h : vmin < vmax) (v : ℚ) :
    0 ≤ windowToU8 vmin vmax v ∧ windowToU8 vmin vmax v ≤ 255 := by
  have h0 := clampAbove_nonneg (windowScale_nonneg h v)
  have h1 := clampAbove_le_one (windowScale vmin vmax v)
  have hu := toU8_of_unit h0 h1
  unfold windowToU8
  rw [hu.1]
  exact ⟨hu.2.1, hu.2.2⟩

theorem windowToU8_mono {vmin vmax : ℚ} (h : vmin < vmax) {v w : ℚ}
    (hvw : v ≤ w) : windowToU8 vmin vmax v ≤ windowToU8 vmin vmax w := by
  have hv0 := clampAbove_nonneg (windowScale_nonneg h v)
  have hv1 := clampAbove_le_one (windowScale vmin vmax v)
  have hw0 := clampAbove_nonneg (windowScale_nonneg h w)
  have hw1 := clampAbove_le_one (windowScale vmin vmax w)
  unfold windowToU8
  rw [(toU8_of_unit hv0 hv1).1, (toU8_of_unit hw0 hw1).1]
  apply Int.floor_le_floor
  have hmono := clampAbove_mono (windowScale_mono h hvw)
  nlinarith

/-- Every channel emitted by per-channel mode is some channel slice windowed
by some pair of the per-channel array. -/
theorem mem_update_contrast_per_channel {pairs : List (ℚ × ℚ)}
    {channels : List (List ℚ)} {ch : List ℤ}
    (h : ch ∈ update_contrast_per_channel pairs channels) :
    ∃ p c, p ∈ pairs ∧ c ∈ channels ∧
      ch = c.map (fun v => windowToU8 p.1 p.2 v) := by
  induction pairs generalizing channels with
  | nil => simp [update_contrast_per_channel] at h
  | cons p ps ih =>
    cases channels with
    | nil => simp [update_contrast_per_channel] at h
    | cons c cs =>
      simp only [update_contrast_per_channel, List.zipWith_cons_cons,
        List.mem_cons] at h
      rcases h with h | h
      · exact ⟨p, c, List.mem_cons_self _ _, List.mem_cons_self _ _, h⟩
      · obtain ⟨p1, c1, hp1, hc1, hch⟩ := ih h
        exact ⟨p1, c1, List.mem_cons_of_mem _ hp1, List.mem_cons_of_mem _ hc1, hch⟩

/-- Indexwise description of per-channel mode. -/
theorem update_contrast_per_channel_get {pairs : List (ℚ × ℚ)}
    {channels : List (List ℚ)} (i : ℕ) (p : ℚ × ℚ) (ch : List ℚ)
    (hp : pairs.get? i = some p) (hc : channels.get? i = some ch) :
    (update_contrast_per_channel pairs channels).get? i
      = some (ch.map (fun v => windowToU8 p.1 p.2 v)) := by
  induction pairs generalizing channels i with
  | nil => simp at hp
  | cons q qs ih =>
    cases channels with
    | nil => simp at hc
    | cons c cs =>
      cases i with
      | zero =>
        simp only [List.get?] at hp hc
        cases hp
        cases hc
        rfl
      | succ n =>
        simp only [List.get?] at hp hc
        simpa [update_contrast_per_channel] using ih n hp hc

theorem update_min_display_succ (n : ℕ) (s : DisplayBounds) :
    update_min_display (n + 1) s =
      (if s.maxD ≤ s.minD then
        update_max_display n
          ⟨(if s.minD = 255 then update_min_display n ⟨254, s.maxD⟩ else s).minD,
            s.minD + 1⟩
      else (if s.minD = 255 then update_min_display n ⟨254, s.maxD⟩ else s)) := rfl

theorem update_max_display_succ (n : ℕ) (s : DisplayBounds) :
    update_max_display (n + 1) s =
      (if s.maxD ≤ s.minD then
        update_min_display n
          ⟨s.maxD - 1,
            (if s.maxD = 0 then update_max_display n ⟨s.minD, 1⟩ else s).maxD⟩
      else (if s.maxD = 0 then update_max_display n ⟨s.minD, 1⟩ else s)) := rfl

theorem update_min_display_step (n : ℕ) (s : DisplayBounds) (h255 : s.minD ≠ 255) :
    update_min_display (n + 1) s =
      if s.maxD ≤ s.minD then update_max_display n ⟨s.minD, s.minD + 1⟩ else s := by
  rw [update_min_display_succ, if_neg h255]

theorem update_max_display_step (n : ℕ) (s : DisplayBounds) (h0 : s.maxD ≠ 0) :
    update_max_display (n + 1) s =
      if s.maxD ≤ s.minD then update_min_display n ⟨s.maxD - 1, s.maxD⟩ else s := by
  rw [update_max_display_succ, if_neg h0]

theorem update_min_display_id (n : ℕ) (s : DisplayBounds) (h255 : s.minD ≠ 255)
    (hlt : s.minD < s.maxD) : update_min_display (n + 1) s = s := by
  rw [update_min_display_step n s h255, if_neg (by omega)]

theorem update_max_display_id (n : ℕ) (s : DisplayBounds) (h0 : s.maxD ≠ 0)
    (hlt : s.minD < s.maxD) : update_max_display (n + 1) s = s := by
  rw [update_max_display_step n s h0, if_neg (by omega)]

/-- Closed form of writing v into min_display_value over bounds (m, M). -/
theorem set_min_display_eval (m M v : ℤ) :
    set_min_display v ⟨m, M⟩ =
      if v = 255 then (if M ≤ 255 then ⟨254, 256⟩ else ⟨254, M⟩)
      else if M ≤ v then (if v = -1 then ⟨-1, 1⟩ else ⟨v, v + 1⟩)
      else ⟨v, M⟩ := by
  show update_min_display 3 ⟨v, M⟩ = _
  by_cases hv : v = 255
  · subst hv
    rw [update_min_display_succ 2 ⟨255, M⟩]
    dsimp only
    rw [if_pos (rfl : (255 : ℤ) = 255)]
    rw [update_min_display_step 1 ⟨254, M⟩ (show (254 : ℤ) ≠ 255 by omega)]
    dsimp only
    rw [update_max_display_id 0 ⟨254, 254 + 1⟩ (show (254 : ℤ) + 1 ≠ 0 by omega)
      (show (254 : ℤ) < 254 + 1 by omega)]
    rw [apply_ite DisplayBounds.minD]
    dsimp only
    rw [ite_self]
    rw [update_max_display_id 1 ⟨254, 255 + 1⟩ (show (255 : ℤ) + 1 ≠ 0 by omega)
      (show (254 : ℤ) < 255 + 1 by omega)]
    split_ifs <;> simp_all [DisplayBounds.mk.injEq] <;> omega
  · rw [update_min_display_step 2 ⟨v, M⟩ hv]
    dsimp only
    by_cases hM : M ≤ v
    · rw [if_pos hM]
      by_cases hneg : v = -1
      · subst hneg
        rw [update_max_display_succ 1 ⟨-1, -1 + 1⟩]
        dsimp only
        rw [if_pos (show (-1 : ℤ) + 1 = 0 by omega)]
        rw [update_max_display_id 0 ⟨-1, 1⟩ (show (1 : ℤ) ≠ 0 by omega)
          (show (-1 : ℤ) < 1 by omega)]
        rw [if_neg (show ¬((-1 : ℤ) + 1 ≤ -1) by omega)]
        split_ifs <;> simp_all [DisplayBounds.mk.injEq] <;> omega
      · rw [update_max_display_step 1 ⟨v, v + 1⟩ (show v + 1 ≠ 0 by omega)]
        dsimp only
        rw [if_neg (show ¬(v + 1 ≤ v) by omega)]
        split_ifs <;> simp_all [DisplayBounds.mk.injEq] <;> omega
    · rw [if_neg hM]
      split_ifs <;> simp_all [DisplayBounds.mk.injEq] <;> omega

/-- Closed form of writing v into max_display_value over bounds (m, M). -/
theorem set_max_display_eval (m M v : ℤ) :
    set_max_display v ⟨m, M⟩ =
      if v = 0 then (if 0 ≤ m then ⟨-1, 1⟩ else ⟨m, 1⟩)
      else if v ≤ m then (if v = 256 then ⟨254, 256⟩ else ⟨v - 1, v⟩)
      else ⟨m, v⟩ := by
  show update_max_display 3 ⟨m, v⟩ = _
  by_cases hv : v = 0
  · subst hv
    rw [update_max_display_succ 2 ⟨m, 0⟩]
    dsimp only
    rw [if_pos (rfl : (0 : ℤ) = 0)]
    rw [update_max_display_step 1 ⟨m, 1⟩ (show (1 : ℤ) ≠ 0 by omega)]
    dsimp only
    rw [update_min_display_id 0 ⟨1 - 1, 1⟩ (show (1 : ℤ) - 1 ≠ 255 by omega)
      (show (1 : ℤ) - 1 < 1 by omega)]
    rw [apply_ite DisplayBounds.maxD]
    dsimp only
    rw [ite_self]
    rw [update_min_display_id 1 ⟨0 - 1, 1⟩ (show (0 : ℤ) - 1 ≠ 255 by omega)
      (show (0 : ℤ) - 1 < 1 by omega)]
    split_ifs <;> simp_all [DisplayBounds.mk.injEq] <;> omega
  · rw [update_max_display_step 2 ⟨m, v⟩ hv]
    dsimp only
    by_cases hm : v ≤ m
    · rw [if_pos hm]
      by_cases h256 : v = 256
      · subst h256
        rw [update_min_display_succ 1 ⟨256 - 1, 256⟩]
        dsimp only
        rw [if_pos (show (256 : ℤ) - 1 = 255 by omega)]
        rw [update_min_display_id 0 ⟨254, 256⟩ (show (254 : ℤ) ≠ 255 by omega)
          (show (254 : ℤ) < 256 by omega)]
        rw [if_neg (show ¬((256 : ℤ) ≤ 256 - 1) by omega)]
        split_ifs <;> simp_all [DisplayBounds.mk.injEq] <;> omega
      · rw [update_min_display_id 1 ⟨v - 1, v⟩ (show v - 1 ≠ 255 by omega)
          (show v - 1 < v by omega)]
        split_ifs <;> simp_all [DisplayBounds.mk.injEq] <;> omega
    · rw [if_neg hm]
      split_ifs <;> simp_all [DisplayBounds.mk.injEq] <;> omega

theorem next_file_lt (n i : ℕ) (h : (i : ℤ) < (n : ℤ) - 1) (h1 : n ≠ 1) :
    next_file n i = (i + 1, true) := by
  simp only [next_file]
  rw [if_neg h1, if_pos h]

theorem next_file_last (n : ℕ) (h2 : 2 ≤ n) : next_file n (n - 1) = (0, true) := by
  simp only [next_file]
  rw [if_neg (by omega), if_neg (by omega), if_pos (by omega)]

theorem prev_file_pos (n i : ℕ) (h : 0 < i) (h1 : n ≠ 1) :
    prev_file n i = (i - 1, true) := by
  simp only [prev_file]
  rw [if_neg h1, if_pos h]

theorem prev_file_zero (n : ℕ) (h1 : n ≠ 1) : prev_file n 0 = (n - 1, true) := by
  simp [prev_file, h1]

/-- C8: on a series of length at least two with the current index in range,
next_file then prev_file (and vice versa) restores the index, with
wrap-around at both ends; on a length-one series both operations are no-ops
that neither change the index nor load a file.  (A stored series of length
zero never reaches this guard: the lazy rebuild that precedes it either
raises or produces a series containing the current file.) -/
theorem next_prev_roundtrip :
    (∀ listLen idx : ℕ, 2 ≤ listLen → idx < listLen →
      (prev_file listLen (next_file listLen idx).1).1 = idx ∧
      (next_file listLen (prev_file listLen idx).1).1 = idx ∧
      next_file listLen (listLen - 1) = (0, true) ∧
      prev_file listLen 0 = (listLen - 1, true)) ∧
    (∀ idx : ℕ, next_file 1 idx = (idx, false) ∧ prev_file 1 idx = (idx, false)) := by
  constructor
  · intro n i h2 hi
    refine ⟨?_, ?_, next_file_last n h2, prev_file_zero n (by omega)⟩
    · by_cases hlt : (i : ℤ) < (n : ℤ) - 1
      · rw [next_file_lt n i hlt (by omega)]
        dsimp only
        rw [prev_file_pos n (i + 1) (by omega) (by omega)]
        dsimp only
        omega
      · rw [show i = n - 1 by omega, next_file_last n h2]
        dsimp only
        rw [prev_file_zero n (by omega)]
    · by_cases h0 : 0 < i
      · rw [prev_file_pos n i h0 (by omega)]
        dsimp only
        rw [next_file_lt n (i - 1) (by omega) (by omega)]
        dsimp only
        omega
      · rw [show i = 0 by omega, prev_file_zero n (by omega)]
        dsimp only
        rw [next_file_last n h2]
  · intro i
    constructor
    · simp [next_file]
    · simp [prev_file]

/-- Witness for C8: a three-file series, navigating from index 1 and from the
wrap-around end, plus the length-one no-op. -/
theorem next_prev_roundtrip_witness :
    (prev_file 3 (next_file 3 1).1).1 = 1 ∧
    next_file 3 (3 - 1) = (0, true) ∧
    next_file 1 7 = (7, false) :=
  ⟨(next_prev_roundtrip.1 3 1 (by decide) (by decide)).1,
   (next_prev_roundtrip.1 3 1 (by decide) (by decide)).2.2.1,
   (next_prev_roundtrip.2 7).1⟩

/-- C9: every decode failure takes the local recovery path: no exception
escapes (the except branch makes the model total), the placeholder text is
shown, the session-identifying state — file and reader — is cleared, and
every operation guarded by not_without_file is subsequently a no-op, so the
viewer is back in a usable idle state with file-dependent operations
disabled. -/
theorem load_image_failure_recovery :
    ∀ (s : Session) (path : String) (dec : DecodeResult),
      decode_failed dec = true →
      (load_image s path dec).file = none ∧
      (load_image s path dec).reader = none ∧
      (load_image s path dec).placeholder = true ∧
      (∀ op : Session → Session,
        not_without_file op (load_image s path dec) = load_image s path dec) := by
  intro s path dec h
  have key : (load_image s path dec).file = none ∧
      (load_image s path dec).reader = none ∧
      (load_image s path dec).placeholder = true := by
    cases dec with
    | failOpen => exact ⟨rfl, rfl, rfl⟩
    | failData n => exact ⟨rfl, rfl, rfl⟩
    | ok planes =>
      have hp : planes = [] := by
        simpa [decode_failed, List.isEmpty_iff] using h
      subst hp
      exact ⟨rfl, rfl, rfl⟩
  refine ⟨key.1, key.2.1, key.2.2, ?_⟩
  intro op
  simp [not_without_file, key.1]

/-- Witness for C9: a failed open over a fresh session leaves no file and
disables a file-gated operation. -/
theorem load_image_failure_recovery_witness :
    decode_failed DecodeResult.failOpen = true ∧
    (load_image ⟨none, none, none, 0, 0, false, 0, 255, false⟩ "f"
      DecodeResult.failOpen).file = none ∧
    not_without_file id (load_image ⟨none, none, none, 0, 0, false, 0, 255, false⟩
      "f" DecodeResult.failOpen)
      = load_image ⟨none, none, none, 0, 0, false, 0, 255, false⟩ "f"
        DecodeResult.failOpen :=
  ⟨rfl,
   (load_image_failure_recovery ⟨none, none, none, 0, 0, false, 0, 255, false⟩
     "f" DecodeResult.failOpen rfl).1,
   (load_image_failure_recovery ⟨none, none, none, 0, 0, false, 0, 255, false⟩
     "f" DecodeResult.failOpen rfl).2.2.2 id⟩

/-- C10 counterexample: a two-plane stack has maxPlane = 1 > 0, yet the
initially decoded and displayed plane is index maxPlane / 2 = 0 — plane 0 —
so the claim's "not plane 0" fails; the middle index differs from 0 only
from three planes upward. -/
theorem load_image_two_plane_counterexample :
    (load_image ⟨none, none, none, 0, 0, false, 0, 255, false⟩ "f"
      (DecodeResult.ok [[0], [1]])).maxPlane = 1 ∧
    (load_image ⟨none, none, none, 0, 0, false, 0, 255, false⟩ "f"
      (DecodeResult.ok [[0], [1]])).zValue = 0 ∧
    (load_image ⟨none, none, none, 0, 0, false, 0, 255, false⟩ "f"
      (DecodeResult.ok [[0], [1]])).imageData = some [0] := by
  refine ⟨rfl, rfl, rfl⟩

/-- C10 (amended): for a successfully decoded stack with maxPlane > 0, the
initially decoded plane and the plane selector are both index maxPlane / 2 —
the middle plane — which is a valid index, and is distinct from plane 0
exactly when maxPlane is at least 2 (for a two-plane stack the middle index
is 0); a single-plane load decodes plane 0 and leaves the selector
untouched. -/
theorem load_image_middle_plane :
    ∀ (s : Session) (path : String) (planes : List Plane), planes ≠ [] →
      (load_image s path (.ok planes)).maxPlane = (planes.length : ℤ) - 1 ∧
      (1 < planes.length →
        (load_image s path (.ok planes)).zValue = (planes.length - 1) / 2 ∧
        (load_image s path (.ok planes)).imageData
          = planes.get? ((load_image s path (.ok planes)).zValue) ∧
        ((load_image s path (.ok planes)).imageData).isSome = true ∧
        (load_image s path (.ok planes)).stackShown = true ∧
        (3 ≤ planes.length → (load_image s path (.ok planes)).zValue ≠ 0)) ∧
      (planes.length = 1 →
        (load_image s path (.ok planes)).imageData = planes.get? 0 ∧
        (load_image s path (.ok planes)).zValue = s.zValue ∧
        (load_image s path (.ok planes)).stackShown = false) := by
  intro s path planes hne
  refine ⟨?_, ?_, ?_⟩
  · simp only [load_image, if_neg hne]
    by_cases h2 : 0 < planes.length - 1
    · rw [if_pos h2]
      have h1 : 1 ≤ planes.length := List.length_pos.mpr hne
      dsimp only
      omega
    · rw [if_neg h2]
      have h1 : 1 ≤ planes.length := List.length_pos.mpr hne
      dsimp only
      omega
  · intro h2
    have hmp : 0 < planes.length - 1 := by omega
    simp only [load_image, if_neg hne, if_pos hmp]
    have hidx : (planes.length - 1) / 2 < planes.length := by
      have := Nat.div_le_self (planes.length - 1) 2
      omega
    refine ⟨by trivial, by trivial, ?_, by trivial, ?_⟩
    · rw [List.get?_eq_getElem?, List.getElem?_eq_getElem hidx]
      rfl
    · intro h3
      omega
  · intro h1
    have hmp : ¬ 0 < planes.length - 1 := by omega
    simp only [load_image, if_neg hne, if_neg hmp]
    refine ⟨?_, ?_, ?_⟩ <;> first | rfl | trivial

/-- Witness for C10: a three-plane stack displays and selects plane 1, which
is not plane 0. -/
theorem load_image_middle_plane_witness :
    ([[0], [1], [2]] : List Plane) ≠ [] ∧
    (load_image ⟨none, none, none, 0, 0, false, 0, 255, false⟩ "f"
      (DecodeResult.ok [[0], [1], [2]])).zValue = 1 :=
  ⟨by decide,
   ((load_image_middle_plane ⟨none, none, none, 0, 0, false, 0, 255, false⟩ "f"
     [[0], [1], [2]] (by decide)).2.1 (by decide)).1⟩

theorem pyIndex_eq_none_iff {α : Type} [DecidableEq α] (l : List α) (a : α) :
    pyIndex l a = none ↔ a ∉ l := by
  induction l with
  | nil => simp [pyIndex]
  | cons x xs ih =>
    by_cases hx : x = a
    · subst hx
      simp [pyIndex]
    · simp only [pyIndex, if_neg hx, Option.map_eq_none', ih, List.mem_cons,
        not_or]
      constructor
      · intro h
        exact ⟨fun he => hx he.symm, h⟩
      · intro h
        exact h.2

theorem pyIndex_get {α : Type} [DecidableEq α] (l : List α) (a : α) (i : ℕ)
    (h : pyIndex l a = some i) : l.get? i = some a := by
  induction l generalizing i with
  | nil => simp [pyIndex] at h
  | cons x xs ih =>
    by_cases hx : x = a
    · subst hx
      simp only [pyIndex, eq_self_iff_true, if_true, Option.some.injEq] at h
      subst h
      rfl
    · simp only [pyIndex, if_neg hx] at h
      cases hi : pyIndex xs a with
      | none =>
        rw [hi] at h
        simp at h
      | some j =>
        rw [hi] at h
        simp only [Option.map_some', Option.some.injEq] at h
        subst h
        simpa [List.get?] using ih j hi

/-- C7 counterexample: with directory /d, listing [a.png] and current file
/d/b.png, the rebuild assigns the non-empty series [/d/a.png] and then
list.index raises ValueError (modelled by the none index): the failure is
neither silent nor does it produce an empty series. -/
theorem make_file_list_counterexample :
    (make_file_list "/d".toList ["a.png".toList] "/d/b.png".toList).2 = none ∧
    (make_file_list "/d".toList ["a.png".toList] "/d/b.png".toList).1 ≠ [] := by
  refine ⟨by decide, by decide⟩

/-- C7 (amended): the rebuilt series consists exactly of the listing entries
whose extension, compared case-insensitively, is supported, each joined to
the directory; when the current file is absent from that series, list.index
raises ValueError (none) after file_list has already been assigned the
filtered—generally non-empty—series, with current_index left unchanged; when
it is present, the stored index locates the current file. -/
theorem make_file_list_spec :
    ∀ (directory : List Char) (listing : List (List Char)) (file : List Char),
      (∀ g, g ∈ (make_file_list directory listing file).1 ↔
        ∃ f, f ∈ listing ∧ lowerStr (splitext_last f) ∈ SUPPORTED_EXTENSIONS ∧
          g = directory ++ '/' :: f) ∧
      ((make_file_list directory listing file).2 = none ↔
        file ∉ (make_file_list directory listing file).1) ∧
      (∀ i, (make_file_list directory listing file).2 = some i →
        ((make_file_list directory listing file).1).get? i = some file) := by
  intro d l f
  refine ⟨?_, ?_, ?_⟩
  · intro g
    simp only [make_file_list, List.mem_map, List.mem_filter, decide_eq_true_eq]
    constructor
    · rintro ⟨x, ⟨hx, hs⟩, rfl⟩
      exact ⟨x, hx, hs, rfl⟩
    · rintro ⟨x, hx, hs, rfl⟩
      exact ⟨x, ⟨hx, hs⟩, rfl⟩
  · exact pyIndex_eq_none_iff _ _
  · intro i h
    exact pyIndex_get _ _ i h

/-- Witness for C7: a three-entry directory in which the current file sits at
index 1 of the filtered series. -/
theorem make_file_list_spec_witness :
    (make_file_list "/d".toList
      ["a.png".toList, "b.png".toList, "c.txt".toList] "/d/b.png".toList).2
      = some 1 ∧
    ((make_file_list "/d".toList
      ["a.png".toList, "b.png".toList, "c.txt".toList] "/d/b.png".toList).1).get? 1
      = some "/d/b.png".toList :=
  ⟨by decide,
   (make_file_list_spec "/d".toList
     ["a.png".toList, "b.png".toList, "c.txt".toList] "/d/b.png".toList).2.2 1
     (by decide)⟩

/-- C6 counterexample: with maxPlane = 5 and previous value 0, the numeric
entry 9 lies outside [0, 5], yet set_z_plane accepts it (validator returns
True) and silently clamps the plane to 5 instead of rejecting the input and
reverting the entry to 0. -/
theorem set_z_plane_counterexample :
    set_z_plane 5 0 (ZInput.num 9) = (5, true) ∧
    (set_z_plane 5 0 (ZInput.num 9)).2 ≠ false ∧
    (set_z_plane 5 0 (ZInput.num 9)).1 ≠ 0 := by
  refine ⟨by decide, by decide, by decide⟩

/-- C6 (amended): out-of-range numeric input is accepted and clamped silently
into [0, maxPlane] (to maxPlane from above, to 0 from below); in-range
numeric input is stored unchanged; only non-numeric input is rejected, with
the previous value retained; the empty string is treated as 0; no exception
propagates (the model is a total function). -/
theorem set_z_plane_clamps :
    ∀ maxPlane prev n : ℤ, 0 ≤ maxPlane →
      (maxPlane < n → set_z_plane maxPlane prev (ZInput.num n) = (maxPlane, true)) ∧
      (n < 0 → set_z_plane maxPlane prev (ZInput.num n) = (0, true)) ∧
      (0 ≤ n → n ≤ maxPlane → set_z_plane maxPlane prev (ZInput.num n) = (n, true)) ∧
      set_z_plane maxPlane prev ZInput.invalid = (prev, false) ∧
      set_z_plane maxPlane prev ZInput.empty = (0, true) := by
  intro maxPlane prev n h
  refine ⟨?_, ?_, ?_, rfl, ?_⟩
  · intro hn
    simp only [set_z_plane]
    rw [if_pos hn]
  · intro hn
    simp only [set_z_plane]
    rw [if_neg (by omega), if_pos hn]
  · intro h0 hmax
    simp only [set_z_plane]
    rw [if_neg (by omega), if_neg (by omega)]
  · simp only [set_z_plane]
    rw [if_neg (by omega)]

/-- Witness for C6: an above-range entry is clamped to the maximum and a
non-numeric entry reverts to the previous value. -/
theorem set_z_plane_clamps_witness :
    set_z_plane 5 2 (ZInput.num 9) = (5, true) ∧
    set_z_plane 5 2 ZInput.invalid = (2, false) :=
  ⟨(set_z_plane_clamps 5 2 9 (by decide)).1 (by decide),
   (set_z_plane_clamps 5 2 9 (by decide)).2.2.2.1⟩

/-- A value whose Python int() truncation is at least a positive n is itself
at least n. -/
theorem le_of_le_pyTrunc {x : ℚ} {n : ℤ} (hn : 0 < n) (h : n ≤ pyTrunc x) :
    (n : ℚ) ≤ x := by
  unfold pyTrunc at h
  split_ifs at h with h0
  · exact Int.le_floor.mp h
  · exfalso
    have hfl : 0 ≤ ⌊-x⌋ := Int.floor_nonneg.mpr (by linarith)
    omega

/-- C5 counterexample: a 100 by 100 image at zoom factor 31/100 has on-screen
minor dimension 31, so int(31) = 31 passes the guard and the zoom-out step is
accepted, but the resulting factor 31/130 puts the on-screen minor dimension
at 3100/130, strictly below 30 pixels. -/
theorem zoom_out_counterexample :
    zoom_out 100 100 (31 / 100) ≠ 31 / 100 ∧
    min ((100 : ℕ) : ℚ) ((100 : ℕ) : ℚ) * zoom_out 100 100 (31 / 100) < 30 := by
  have hmin : min ((100 : ℕ) : ℚ) ((100 : ℕ) : ℚ) = 100 := by norm_num
  have hz : zoom_out 100 100 (31 / 100) = (31 / 100 : ℚ) / (13 / 10) := by
    unfold zoom_out
    rw [show min ((100 : ℕ) : ℚ) ((100 : ℕ) : ℚ) * (31 / 100) = 31 by norm_num,
      pyTrunc_eval 31 (by norm_num) (by norm_num) (by norm_num),
      if_neg (by norm_num)]
  constructor
  · rw [hz]
    norm_num
  · rw [hz, hmin]
    norm_num

/-- C5 (amended): a zoom step is rejected as a no-op exactly when the
pre-step state already violates the limit (on-screen minor dimension already
truncating below 30 pixels for zoom-out, zoom factor already above one fifth
of the container minor dimension for zoom-in); an accepted step overshoots
each limit by at most one delta factor 13/10: after an accepted zoom-out the
on-screen minor dimension is at least 300/13 pixels, and after an accepted
zoom-in the factor is at most 13/10 of one fifth of the container minor
dimension.  A mouse-wheel step produces either no change or the same result
as the corresponding button step. -/
theorem zoom_step_limits :
    ∀ (iw ih cw ch : ℕ) (z : ℚ),
      (pyTrunc (min (iw : ℚ) (ih : ℚ) * z) < 30 → zoom_out iw ih z = z) ∧
      (¬ pyTrunc (min (iw : ℚ) (ih : ℚ) * z) < 30 →
        zoom_out iw ih z = z * (10 / 13) ∧
        30 ≤ min (iw : ℚ) (ih : ℚ) * z ∧
        300 / 13 ≤ min (iw : ℚ) (ih : ℚ) * zoom_out iw ih z) ∧
      (min (cw : ℚ) (ch : ℚ) / 5 < z → zoom_in cw ch z = z) ∧
      (¬ min (cw : ℚ) (ch : ℚ) / 5 < z →
        zoom_in cw ch z = z * (13 / 10) ∧
        zoom_in cw ch z ≤ (13 / 10) * (min (cw : ℚ) (ch : ℚ) / 5)) ∧
      (∀ (inside : Bool) (delta : ℤ),
        zoom_mouse iw ih cw ch inside delta z = z ∨
        zoom_mouse iw ih cw ch inside delta z = zoom_out iw ih z ∨
        zoom_mouse iw ih cw ch inside delta z = zoom_in cw ch z) := by
  intro iw ih cw ch z
  refine ⟨?_, ?_, ?_, ?_, ?_⟩
  · intro h
    unfold zoom_out
    rw [if_pos h]
  · intro h
    have h30 : (30 : ℚ) ≤ min (iw : ℚ) (ih : ℚ) * z := by
      exact_mod_cast le_of_le_pyTrunc (by norm_num) (not_lt.mp h)
    have hdm : zoom_out iw ih z = z * (10 / 13) := by
      unfold zoom_out
      rw [if_neg h, div_eq_mul_inv]
      norm_num
    refine ⟨hdm, h30, ?_⟩
    rw [hdm]
    have : min (iw : ℚ) (ih : ℚ) * (z * (10 / 13))
        = (min (iw : ℚ) (ih : ℚ) * z) * (10 / 13) := by ring
    rw [this]
    linarith
  · intro h
    unfold zoom_in
    rw [if_pos h]
  · intro h
    unfold zoom_in
    rw [if_neg h]
    refine ⟨rfl, ?_⟩
    have hz : z ≤ min (cw : ℚ) (ch : ℚ) / 5 := not_lt.mp h
    linarith
  · intro inside delta
    unfold zoom_mouse zoom_out zoom_in
    split_ifs <;> tauto

/-- Witness for C5: a rejected zoom-out (minor dimension 10 pixels) and an
accepted zoom-in (factor 1 against a 100-pixel container). -/
theorem zoom_step_limits_witness :
    zoom_out 10 10 1 = 1 ∧ zoom_in 100 100 1 = 1 * (13 / 10) := by
  have h1 : pyTrunc (min ((10 : ℕ) : ℚ) ((10 : ℕ) : ℚ) * 1) < 30 := by
    rw [show min ((10 : ℕ) : ℚ) ((10 : ℕ) : ℚ) * 1 = 10 by norm_num,
      pyTrunc_eval 10 (by norm_num) (by norm_num) (by norm_num)]
    norm_num
  have h2 : ¬ min ((100 : ℕ) : ℚ) ((100 : ℕ) : ℚ) / 5 < 1 := by norm_num
  exact ⟨(zoom_step_limits 10 10 100 100 1).1 h1,
    ((zoom_step_limits 10 10 100 100 1).2.2.2.1 h2).1⟩

/-- C4 counterexample: with bounds (0, 255), writing 255 into the minimum
yields bounds (254, 256): the maximum escapes [0, 255], and the bound being
set (the minimum, written as 255) is itself adjusted to 254 — the correction
pushes the other bound one past the stale pre-correction value. -/
theorem display_bounds_counterexample :
    set_min_display 255 ⟨0, 255⟩ = ⟨254, 256⟩ ∧
    ¬((set_min_display 255 ⟨0, 255⟩).maxD ≤ 255) ∧
    (set_min_display 255 ⟨0, 255⟩).minD ≠ 255 := by
  refine ⟨by decide, by decide, by decide⟩

/-- C4 (amended): the correction always re-establishes min < max strictly.
Away from the edge values, only the bound not being set is adjusted, to one
unit past the written value, and the bounds remain in [0, 255] when the
written value allows it; at the edges (minimum written as 255, maximum
written as 0) the written bound is itself nudged (to 254, resp. 1) while the
other bound is pushed one unit past the original stale value, producing
(254, 256), resp. (-1, 1) — outside [0, 255]. -/
theorem display_bounds_correction :
    ∀ m M v : ℤ,
      ((set_min_display v ⟨m, M⟩).minD < (set_min_display v ⟨m, M⟩).maxD) ∧
      ((set_max_display v ⟨m, M⟩).minD < (set_max_display v ⟨m, M⟩).maxD) ∧
      (M ≤ v → 0 ≤ v → v ≤ 254 → set_min_display v ⟨m, M⟩ = ⟨v, v + 1⟩) ∧
      (v ≤ m → 1 ≤ v → v ≤ 255 → set_max_display v ⟨m, M⟩ = ⟨v - 1, v⟩) ∧
      (M ≤ 255 → set_min_display 255 ⟨m, M⟩ = ⟨254, 256⟩) ∧
      (0 ≤ m → set_max_display 0 ⟨m, M⟩ = ⟨-1, 1⟩) := by
  intro m M v
  refine ⟨?_, ?_, ?_, ?_, ?_, ?_⟩
  · rw [set_min_display_eval m M v]
    split_ifs <;> dsimp only <;> omega
  · rw [set_max_display_eval m M v]
    split_ifs <;> dsimp only <;> omega
  · intro h1 h2 h3
    rw [set_min_display_eval m M v]
    split_ifs <;> first | rfl | (exfalso; omega)
  · intro h1 h2 h3
    rw [set_max_display_eval m M v]
    split_ifs <;> first | rfl | (exfalso; omega)
  · intro h
    rw [set_min_display_eval m M 255]
    split_ifs <;> first | rfl | (exfalso; omega)
  · intro h
    rw [set_max_display_eval m M 0]
    split_ifs <;> first | rfl | (exfalso; omega)

/-- Witness for C4: a non-edge minimum write and an edge maximum write. -/
theorem display_bounds_correction_witness :
    set_min_display 100 ⟨0, 50⟩ = ⟨100, 100 + 1⟩ ∧
    set_max_display 0 ⟨10, 255⟩ = ⟨-1, 1⟩ :=
  ⟨(display_bounds_correction 0 50 100).2.2.1 (by decide) (by decide) (by decide),
   (display_bounds_correction 10 255 0).2.2.2.2.2 (by decide)⟩

/-- C3: for every window with min strictly below max, the contrast mapping is
monotone non-decreasing in the sample value and every output sample lies in
[0, 255]; this holds in global mode and in per-channel mode, where channel i
is windowed independently with the i-th pair. -/
theorem update_contrast_monotone_bounded :
    (∀ vmin vmax : ℚ, vmin < vmax →
      (∀ v w : ℚ, v ≤ w → windowToU8 vmin vmax v ≤ windowToU8 vmin vmax w) ∧
      (∀ data : List ℚ, ∀ y ∈ update_contrast vmin vmax data,
        0 ≤ y ∧ y ≤ 255)) ∧
    (∀ (pairs : List (ℚ × ℚ)) (channels : List (List ℚ)),
      (∀ p ∈ pairs, p.1 < p.2) →
      (∀ ch ∈ update_contrast_per_channel pairs channels, ∀ y ∈ ch,
        0 ≤ y ∧ y ≤ 255) ∧
      (∀ (i : ℕ) (p : ℚ × ℚ) (ch : List ℚ), pairs.get? i = some p →
        channels.get? i = some ch →
        (update_contrast_per_channel pairs channels).get? i
          = some (ch.map (fun v => windowToU8 p.1 p.2 v)))) := by
  constructor
  · intro vmin vmax h
    refine ⟨fun v w hvw => windowToU8_mono h hvw, ?_⟩
    intro data y hy
    simp only [update_contrast, List.mem_map] at hy
    obtain ⟨v, _, rfl⟩ := hy
    exact windowToU8_bounds h v
  · intro pairs channels hpairs
    constructor
    · intro ch hch y hy
      obtain ⟨p, c, hp, _, rfl⟩ := mem_update_contrast_per_channel hch
      simp only [List.mem_map] at hy
      obtain ⟨v, _, rfl⟩ := hy
      exact windowToU8_bounds (hpairs p hp) v
    · intro i p ch hp hc
      exact update_contrast_per_channel_get i p ch hp hc

/-- Witness for C3: a concrete window (0, 255), a monotone pair of samples,
and a concrete per-channel lookup. -/
theorem update_contrast_monotone_bounded_witness :
    ((0 : ℚ) < 255 ∧ windowToU8 0 255 10 ≤ windowToU8 0 255 20) ∧
    (update_contrast_per_channel [((0 : ℚ), 255)] [[100]]).get? 0
      = some [windowToU8 0 255 100] := by
  constructor
  · exact ⟨by norm_num,
      (update_contrast_monotone_bounded.1 0 255 (by norm_num)).1 10 20 (by norm_num)⟩
  · exact (update_contrast_monotone_bounded.2 [((0 : ℚ), 255)] [[100]]
      (by intro p hp; simp at hp; rw [hp]; norm_num)).2 0 (0, 255) [100] rfl rfl

/-- Witness for C2: the refinement applied at the scenario of the claim. -/
theorem show_image_des_refines_spec_witness :
    show_image_des ⟨0, 0, 200, 200⟩ ⟨10, 10, 50, 50⟩ 2 = some ⟨5, 5, 25, 25⟩ ∧
    (⟨5, 5, 25, 25⟩ : Bbox) = spec_des ⟨0, 0, 200, 200⟩ ⟨10, 10, 50, 50⟩ 2 := by
  have h : show_image_des ⟨0, 0, 200, 200⟩ ⟨10, 10, 50, 50⟩ 2
      = some ⟨5, 5, 25, 25⟩ := by
    unfold show_image_des
    norm_num [min_def, max_def]
    rw [pyTrunc_eval 40 (by norm_num) (by norm_num) (by norm_num)]
    norm_num
  exact ⟨h, show_image_des_refines_spec _ _ _ _ h⟩

end ImQuick
